import Mathlib

/-!
Shallow embedding of the snake-game core (snake.cpp / game.cpp /
controller.cpp / gameoverhandler.cpp) and verification of its
specification's claims.

Machine floats (`float head_x`, `float speed`, elapsed times) are
modelled by exact rationals; `static_cast<int>` is C truncation toward
zero; `fmod` is the C library remainder `a - b * trunc(a / b)`.  The
pseudo-random candidate stream of `std::uniform_int_distribution` is
modelled by an explicit list of candidate cells, and the rejection
sampling loop of `Game::PlaceFood` by a recursion over that list.
-/

namespace SnakeGame

/-- Source `SDL_Point`: a grid cell with integer coordinates. -/
structure SDLPoint where
  x : Int
  y : Int
deriving DecidableEq, Repr

/-- Source `Snake::Direction`. -/
inductive Direction where
  | kUp
  | kDown
  | kLeft
  | kRight
deriving DecidableEq, Repr

/-- C truncation toward zero of a rational, as in `static_cast<int>`
and in the quotient underlying `fmod`. -/
def rtrunc (q : ℚ) : Int :=
  if 0 ≤ q then ⌊q⌋ else ⌈q⌉

/-- C `fmod a b = a - b * trunc (a / b)`. -/
def fmod (a b : ℚ) : ℚ :=
  a - b * (rtrunc (a / b) : ℚ)

/-- The `Snake` class state (snake.h): head coordinates are sub-cell
rationals, `body` is the deque of trailing segment cells (front first). -/
structure Snake where
  direction : Direction
  speed : ℚ
  size : Int
  alive : Bool
  head_x : ℚ
  head_y : ℚ
  body : List SDLPoint
  growing : Bool
  grid_width : Int
  grid_height : Int
deriving DecidableEq, Repr

/-- Constructor `Snake::Snake(grid_width, grid_height)` together with the member
initializers of snake.h: head at the grid center (integer division),
direction up, speed 10, size 1, alive, not growing, empty body. -/
def snakeInit (grid_width grid_height : Int) : Snake :=
  { direction := Direction.kUp
    speed := 10
    size := 1
    alive := true
    head_x := ((grid_width / 2 : Int) : ℚ)
    head_y := ((grid_height / 2 : Int) : ℚ)
    body := []
    growing := false
    grid_width := grid_width
    grid_height := grid_height }

/-- The discrete head cell `{static_cast<int>(head_x), static_cast<int>(head_y)}`. -/
def Snake.cell (s : Snake) : SDLPoint :=
  ⟨rtrunc s.head_x, rtrunc s.head_y⟩

/-- Source `Snake::UpdateHead`: move along the current direction by
`speed * elapsed_time`, then wrap both coordinates with
`fmod (coord + dim) dim`. -/
def Snake.updateHead (s : Snake) (elapsed_time : ℚ) : Snake :=
  let s1 :=
    match s.direction with
    | Direction.kUp => { s with head_y := s.head_y - s.speed * elapsed_time }
    | Direction.kDown => { s with head_y := s.head_y + s.speed * elapsed_time }
    | Direction.kLeft => { s with head_x := s.head_x - s.speed * elapsed_time }
    | Direction.kRight => { s with head_x := s.head_x + s.speed * elapsed_time }
  { s1 with
    head_x := fmod (s1.head_x + (s.grid_width : ℚ)) (s.grid_width : ℚ)
    head_y := fmod (s1.head_y + (s.grid_height : ℚ)) (s.grid_height : ℚ) }

/-- Source `Snake::UpdateBody`: push the previous head cell on the front of the
deque, pop the back unless growing (a growing tick keeps the tail and
increments `size`, consuming the flag), then scan the deque and clear
`alive` if the current head cell equals any segment. -/
def Snake.updateBody (s : Snake) (current_head_cell prev_head_cell : SDLPoint) : Snake :=
  let body1 := prev_head_cell :: s.body
  let s1 :=
    if s.growing then
      { s with body := body1, growing := false, size := s.size + 1 }
    else
      { s with body := body1.dropLast }
  if s1.body.any (fun item => current_head_cell.x == item.x && current_head_cell.y == item.y) then
    { s1 with alive := false }
  else
    s1

/-- Source `Snake::Update(elapsed_time)`: record the previous discrete cell,
move the head, and run `UpdateBody` only when the discrete cell changed. -/
def Snake.update (s : Snake) (elapsed_time : ℚ) : Snake :=
  let prev_cell := s.cell
  let s1 := s.updateHead elapsed_time
  let current_cell := s1.cell
  if current_cell.x ≠ prev_cell.x ∨ current_cell.y ≠ prev_cell.y then
    s1.updateBody current_cell prev_cell
  else
    s1

/-- Source `Snake::Reset`. -/
def Snake.reset (s : Snake) : Snake :=
  { s with
    head_x := ((s.grid_width / 2 : Int) : ℚ)
    head_y := ((s.grid_height / 2 : Int) : ℚ)
    body := []
    size := 1
    alive := true
    growing := false
    speed := 10
    direction := Direction.kUp }

/-- Source `Snake::GrowBody` (the lock acquisition has no sequential content). -/
def Snake.growBody (s : Snake) : Snake :=
  { s with growing := true }

/-- Source `Snake::SnakeCell(x, y)`: scan the trailing-segment deque for the
cell; the head cell is not consulted. -/
def Snake.snakeCell (s : Snake) (x y : Int) : Bool :=
  s.body.any (fun item => x == item.x && y == item.y)

/-- Source `Snake::IncreaseSpeed`: `speed *= 1.1`. -/
def Snake.increaseSpeed (s : Snake) : Snake :=
  { s with speed := s.speed * (11 / 10) }

/-- Source `Controller::ChangeDirection(snake, input, opposite)`: assign
`input` unless the current direction equals `opposite` and the size is
not 1. -/
def changeDirection (s : Snake) (input opposite : Direction) : Snake :=
  if s.direction ≠ opposite ∨ s.size = 1 then { s with direction := input } else s

/-- The opposite direction `Controller::HandleInput` passes with each
arrow-key input. -/
def oppositeDir : Direction → Direction
  | Direction.kUp => Direction.kDown
  | Direction.kDown => Direction.kUp
  | Direction.kLeft => Direction.kRight
  | Direction.kRight => Direction.kLeft

/-- The shared game state of `Game` (game.h): snake, food cell, score,
running flag.  Threads, the mutex and the condition variable carry no
sequential content and are not part of the functional state. -/
structure Game where
  snake : Snake
  food : SDLPoint
  score : Int
  running : Bool
deriving DecidableEq, Repr

/-- The rejection-sampling loop of `Game::PlaceFood`: the pseudo-random
draws of `random_w(engine)` / `random_h(engine)` are supplied as an
explicit candidate stream; the loop returns the first candidate for
which `Snake::SnakeCell` is false, and finds nothing if the stream is
exhausted (the real loop would keep drawing forever). -/
def placeFoodLoop (cands : List SDLPoint) (s : Snake) : Option SDLPoint :=
  match cands with
  | [] => none
  | c :: rest => if s.snakeCell c.x c.y then placeFoodLoop rest s else some c

/-- Outcome of `SDL_ShowMessageBox` in
`GameOverHandler::ShowGameOverMessage`: the call fails (returns `< 0`)
or stores the id of the clicked button (`0` = "No", `1` = "Yes"). -/
inductive MsgBoxOutcome where
  | failure
  | clicked (buttonid : Int)
deriving DecidableEq, Repr

/-- Source `GameOverHandler::ShowGameOverMessage`: `false` on a failed
`SDL_ShowMessageBox`, otherwise `buttonid == 1`. -/
def showGameOverMessage : MsgBoxOutcome → Bool
  | MsgBoxOutcome.failure => false
  | MsgBoxOutcome.clicked buttonid => buttonid == 1

/-- Source `Game::ResetGame`: reset the snake, zero the score, re-place the
food (rejection sampling over the candidate stream), set `running` and
`snake.alive` true.  `none` when the candidate stream is exhausted. -/
def Game.resetGame (g : Game) (cands : List SDLPoint) : Option Game :=
  let s := g.snake.reset
  match placeFoodLoop cands s with
  | some f => some { snake := { s with alive := true }, food := f, score := 0, running := true }
  | none => none

/-- Source `Game::HandleGameOver`: on an affirmative prompt answer run
`ResetGame`, otherwise set `running = false`. -/
def Game.handleGameOver (g : Game) (outcome : MsgBoxOutcome) (cands : List SDLPoint) :
    Option Game :=
  if showGameOverMessage outcome then g.resetGame cands
  else some { g with running := false }

/-- A snake whose trailing segments cover every cell of a 2×2 grid:
the configuration under which `Game::PlaceFood` can never accept a
candidate. -/
def fullSnake22 : Snake :=
  { direction := Direction.kUp
    speed := 10
    size := 5
    alive := true
    head_x := 0
    head_y := 0
    body := [⟨0, 0⟩, ⟨1, 0⟩, ⟨0, 1⟩, ⟨1, 1⟩]
    growing := false
    grid_width := 2
    grid_height := 2 }

/-! ### Helper lemmas -/

theorem rtrunc_eq_floor (q : ℚ) (h : 0 ≤ q) : rtrunc q = ⌊q⌋ :=
  if_pos h

theorem fmod_bounds (a b : ℚ) (hb : 0 < b) (ha : 0 ≤ a) :
    0 ≤ fmod a b ∧ fmod a b < b := by
  have hq : (0 : ℚ) ≤ a / b := div_nonneg ha hb.le
  have h1 : ((⌊a / b⌋ : ℚ)) ≤ a / b := Int.floor_le _
  have h2 : a / b < (⌊a / b⌋ : ℚ) + 1 := Int.lt_floor_add_one _
  have h3 : a / b * b = a := div_mul_cancel₀ a hb.ne'
  unfold fmod
  rw [rtrunc_eq_floor _ hq]
  constructor
  · nlinarith
  · nlinarith

theorem fmod_double (b : ℚ) (hb : 0 < b) : fmod (b + b) b = 0 := by
  have hq : (b + b) / b = 2 := by
    field_simp
    ring
  have hfl : ⌊(2 : ℚ)⌋ = 2 := by norm_num
  unfold fmod
  rw [hq, rtrunc_eq_floor 2 (by norm_num), hfl]
  push_cast
  ring

theorem Snake.updateHead_fields (s : Snake) (e : ℚ) :
    (s.updateHead e).body = s.body ∧ (s.updateHead e).size = s.size ∧
      (s.updateHead e).alive = s.alive ∧ (s.updateHead e).growing = s.growing ∧
      (s.updateHead e).speed = s.speed ∧ (s.updateHead e).direction = s.direction := by
  unfold Snake.updateHead
  cases s.direction <;> exact ⟨rfl, rfl, rfl, rfl, rfl, rfl⟩

/-- The final self-collision scan of `Snake::UpdateBody`, factored out:
clear `alive` when the current head cell matches any segment. -/
def collideCheck (t : Snake) (current_head_cell : SDLPoint) : Snake :=
  if t.body.any (fun item => current_head_cell.x == item.x && current_head_cell.y == item.y) then
    { t with alive := false }
  else
    t

theorem Snake.updateBody_eq (s : Snake) (c p : SDLPoint) :
    s.updateBody c p =
      collideCheck
        (if s.growing then { s with body := p :: s.body, growing := false, size := s.size + 1 }
         else { s with body := (p :: s.body).dropLast }) c :=
  rfl

theorem collideCheck_fields (t : Snake) (c : SDLPoint) :
    (collideCheck t c).body = t.body ∧ (collideCheck t c).size = t.size ∧
      (collideCheck t c).speed = t.speed ∧ (collideCheck t c).growing = t.growing ∧
      (collideCheck t c).head_x = t.head_x ∧ (collideCheck t c).head_y = t.head_y := by
  unfold collideCheck
  split <;> exact ⟨rfl, rfl, rfl, rfl, rfl, rfl⟩

theorem collideCheck_alive_of_mem (t : Snake) (c : SDLPoint) (h : c ∈ t.body) :
    (collideCheck t c).alive = false := by
  unfold collideCheck
  rw [if_pos (List.any_eq_true.mpr ⟨c, h, by simp⟩)]

theorem collideCheck_alive_of_not_mem (t : Snake) (c : SDLPoint) (h : ¬c ∈ t.body) :
    (collideCheck t c).alive = t.alive := by
  unfold collideCheck
  rw [if_neg]
  intro hany
  obtain ⟨q, hq, hqx⟩ := List.any_eq_true.mp hany
  obtain ⟨h1, h2⟩ := Bool.and_eq_true_iff.mp hqx
  apply h
  have hx : c.x = q.x := by exact_mod_cast beq_iff_eq.mp h1
  have hy : c.y = q.y := by exact_mod_cast beq_iff_eq.mp h2
  have hcq : c = q := by
    cases c
    cases q
    simp_all
  rw [hcq]
  exact hq

theorem collideCheck_alive_false (t : Snake) (c : SDLPoint) (h : t.alive = false) :
    (collideCheck t c).alive = false := by
  unfold collideCheck
  split
  · rfl
  · exact h

theorem Snake.updateBody_body (s : Snake) (c p : SDLPoint) :
    (s.updateBody c p).body =
      if s.growing = true then p :: s.body else (p :: s.body).dropLast := by
  rw [Snake.updateBody_eq, (collideCheck_fields _ _).1]
  by_cases hg : s.growing = true <;> simp [hg]

theorem Snake.updateBody_size (s : Snake) (c p : SDLPoint) :
    (s.updateBody c p).size = if s.growing = true then s.size + 1 else s.size := by
  rw [Snake.updateBody_eq, (collideCheck_fields _ _).2.1]
  by_cases hg : s.growing = true <;> simp [hg]

theorem Snake.updateBody_speed (s : Snake) (c p : SDLPoint) :
    (s.updateBody c p).speed = s.speed := by
  rw [Snake.updateBody_eq, (collideCheck_fields _ _).2.2.1]
  by_cases hg : s.growing = true <;> simp [hg]

theorem Snake.updateBody_head_coords (s : Snake) (c p : SDLPoint) :
    (s.updateBody c p).head_x = s.head_x ∧ (s.updateBody c p).head_y = s.head_y := by
  rw [Snake.updateBody_eq]
  refine ⟨((collideCheck_fields _ _).2.2.2.2.1).trans ?_,
    ((collideCheck_fields _ _).2.2.2.2.2).trans ?_⟩ <;>
    by_cases hg : s.growing = true <;> simp [hg]

theorem Snake.update_eq (s : Snake) (e : ℚ) :
    s.update e =
      if (s.updateHead e).cell.x ≠ s.cell.x ∨ (s.updateHead e).cell.y ≠ s.cell.y then
        (s.updateHead e).updateBody (s.updateHead e).cell s.cell
      else s.updateHead e :=
  rfl

theorem Snake.update_head_coords (s : Snake) (e : ℚ) :
    (s.update e).head_x = (s.updateHead e).head_x ∧
      (s.update e).head_y = (s.updateHead e).head_y := by
  rw [Snake.update_eq]
  split
  · exact Snake.updateBody_head_coords _ _ _
  · exact ⟨rfl, rfl⟩

/-! ### C1 -/

/-- C1 (corrected): `Snake::SnakeCell(x, y)` is not a full occupancy
test: it returns true exactly when `(x, y)` equals a trailing-segment
cell of the deque, and it never consults the head's discrete cell. -/
theorem snakeCell_iff_mem_body (s : Snake) (x y : Int) :
    s.snakeCell x y = true ↔ ∃ p ∈ s.body, x = p.x ∧ y = p.y := by
  simp [Snake.snakeCell, List.any_eq_true, Bool.and_eq_true, beq_iff_eq]

/-- C1 counterexample: for the freshly constructed snake on a 4×4 grid
the head's discrete cell is (2, 2), yet `SnakeCell(2, 2)` is false, so
the occupancy test is not "head cell or trailing segment". -/
theorem snakeCell_misses_head_cex :
    ¬(Snake.snakeCell (snakeInit 4 4) 2 2 = true ↔
        ((⟨2, 2⟩ : SDLPoint) = (snakeInit 4 4).cell ∨
          (⟨2, 2⟩ : SDLPoint) ∈ (snakeInit 4 4).body)) := by
  decide

/-! ### C2 -/

/-- C2 (corrected): whenever the rejection-sampling loop of
`Game::PlaceFood` returns a cell, that cell fails `Snake::SnakeCell`,
hence equals no trailing-segment cell — but nothing excludes the head's
discrete cell. -/
theorem placeFood_avoids_body (cands : List SDLPoint) (s : Snake) (c : SDLPoint)
    (h : placeFoodLoop cands s = some c) :
    s.snakeCell c.x c.y = false ∧ ∀ p ∈ s.body, ¬(c.x = p.x ∧ c.y = p.y) := by
  induction cands with
  | nil => simp [placeFoodLoop] at h
  | cons a rest ih =>
    by_cases hc : s.snakeCell a.x a.y = true
    · rw [placeFoodLoop, if_pos hc] at h
      exact ih h
    · rw [placeFoodLoop, if_neg hc] at h
      obtain rfl : a = c := Option.some.inj h
      refine ⟨by simpa using hc, ?_⟩
      intro p hp hpc
      apply hc
      unfold Snake.snakeCell
      rw [List.any_eq_true]
      exact ⟨p, hp, by simp [hpc.1, hpc.2]⟩

/-- C2 witness: a concrete run of the placement loop returning a free
cell that indeed lies on no trailing segment. -/
theorem placeFood_avoids_body_witness :
    (snakeInit 4 4).snakeCell (0 : Int) (0 : Int) = false ∧
      ∀ p ∈ (snakeInit 4 4).body, ¬((0 : Int) = p.x ∧ (0 : Int) = p.y) :=
  placeFood_avoids_body [⟨0, 0⟩] (snakeInit 4 4) ⟨0, 0⟩ (by decide)

/-- C2 counterexample: on a fresh 4×4 snake (one free cell certainly
exists) the loop can return exactly the head's discrete cell (2, 2),
because `SnakeCell` does not protect the head cell. -/
theorem placeFood_on_head_cex :
    placeFoodLoop [⟨2, 2⟩] (snakeInit 4 4) = some ⟨2, 2⟩ ∧
      (snakeInit 4 4).cell = ⟨2, 2⟩ := by
  decide

/-! ### C4 -/

/-- C4: when the trailing segments cover every cell of the 2×2 grid,
`Game::PlaceFood` rejects every in-bounds candidate the generator can
produce: the do-while loop never exits (and no "GridFull" failure
exists in the code). -/
theorem placeFood_grid_full (cands : List SDLPoint)
    (h : ∀ c ∈ cands, 0 ≤ c.x ∧ c.x ≤ 1 ∧ 0 ≤ c.y ∧ c.y ≤ 1) :
    placeFoodLoop cands fullSnake22 = none := by
  induction cands with
  | nil => rfl
  | cons a rest ih =>
    have ha := h a (List.mem_cons_self a rest)
    have hcell : fullSnake22.snakeCell a.x a.y = true := by
      have hx : a.x = 0 ∨ a.x = 1 := by omega
      have hy : a.y = 0 ∨ a.y = 1 := by omega
      rcases hx with hx | hx <;> rcases hy with hy | hy <;>
        rw [show a = (⟨a.x, a.y⟩ : SDLPoint) from rfl, hx, hy] <;> decide
    rw [placeFoodLoop, if_pos hcell]
    exact ih (fun c hc => h c (List.mem_cons_of_mem a hc))

/-- C4 witness: the loop finds nothing on a concrete in-bounds candidate
stream over the fully covered grid. -/
theorem placeFood_grid_full_witness :
    (∀ c ∈ [(⟨0, 0⟩ : SDLPoint), ⟨1, 1⟩], 0 ≤ c.x ∧ c.x ≤ 1 ∧ 0 ≤ c.y ∧ c.y ≤ 1) ∧
      placeFoodLoop [⟨0, 0⟩, ⟨1, 1⟩] fullSnake22 = none :=
  ⟨by decide, placeFood_grid_full [⟨0, 0⟩, ⟨1, 1⟩] (by decide)⟩

/-! ### C3 -/

/-- C3 counterexample: a 4×4 snake at the center moving Up (the default
direction) with `speed * elapsed_time = 9` ends the update at
`head_y = -3`: the single `fmod(head_y + grid_height, grid_height)`
keeps the sign of a negative dividend, so the head leaves `[0, height)`. -/
theorem update_leaves_grid_cex :
    (Snake.update (snakeInit 4 4) (9 / 10)).head_y < 0 := by
  have hc : ⌈(-(3 / 4) : ℚ)⌉ = 0 := by norm_num
  norm_num [Snake.update, Snake.updateHead, Snake.updateBody, Snake.cell, snakeInit,
    fmod, rtrunc, hc]

/-- C3 (amended): if the per-tick displacement `speed * elapsed_time` is
nonnegative and at most each grid dimension, then after `Snake::Update`
the head stays in `[0, width) × [0, height)`; and a head at column
`width - 1` moving Right with displacement 1 wraps to column 0.  (The
unrestricted claim is false: displacements exceeding a dimension in the
Up/Left directions yield a negative coordinate, see the counterexample.) -/
theorem update_wraps_in_bounds (s : Snake) (e : ℚ)
    (hw : 0 < s.grid_width) (hh : 0 < s.grid_height)
    (hx0 : 0 ≤ s.head_x) (hx1 : s.head_x < (s.grid_width : ℚ))
    (hy0 : 0 ≤ s.head_y) (hy1 : s.head_y < (s.grid_height : ℚ))
    (hd0 : 0 ≤ s.speed * e) (hdw : s.speed * e ≤ (s.grid_width : ℚ))
    (hdh : s.speed * e ≤ (s.grid_height : ℚ)) :
    (0 ≤ (s.update e).head_x ∧ (s.update e).head_x < (s.grid_width : ℚ) ∧
      0 ≤ (s.update e).head_y ∧ (s.update e).head_y < (s.grid_height : ℚ)) ∧
    (s.direction = Direction.kRight → s.head_x = (s.grid_width : ℚ) - 1 →
      s.speed * e = 1 → (s.update e).head_x = 0) := by
  have hwQ : (0 : ℚ) < (s.grid_width : ℚ) := by exact_mod_cast hw
  have hhQ : (0 : ℚ) < (s.grid_height : ℚ) := by exact_mod_cast hh
  obtain ⟨ex, ey⟩ := Snake.update_head_coords s e
  rw [ex, ey]
  constructor
  · unfold Snake.updateHead
    cases hdir : s.direction <;> dsimp only
    case kUp =>
      have h1 := fmod_bounds (s.head_x + s.grid_width) s.grid_width hwQ (by linarith)
      have h2 := fmod_bounds (s.head_y - s.speed * e + s.grid_height) s.grid_height hhQ
        (by linarith)
      exact ⟨h1.1, h1.2, h2.1, h2.2⟩
    case kDown =>
      have h1 := fmod_bounds (s.head_x + s.grid_width) s.grid_width hwQ (by linarith)
      have h2 := fmod_bounds (s.head_y + s.speed * e + s.grid_height) s.grid_height hhQ
        (by linarith)
      exact ⟨h1.1, h1.2, h2.1, h2.2⟩
    case kLeft =>
      have h1 := fmod_bounds (s.head_x - s.speed * e + s.grid_width) s.grid_width hwQ
        (by linarith)
      have h2 := fmod_bounds (s.head_y + s.grid_height) s.grid_height hhQ (by linarith)
      exact ⟨h1.1, h1.2, h2.1, h2.2⟩
    case kRight =>
      have h1 := fmod_bounds (s.head_x + s.speed * e + s.grid_width) s.grid_width hwQ
        (by linarith)
      have h2 := fmod_bounds (s.head_y + s.grid_height) s.grid_height hhQ (by linarith)
      exact ⟨h1.1, h1.2, h2.1, h2.2⟩
  · intro hdir hxw hde
    unfold Snake.updateHead
    rw [hdir]
    dsimp only
    have harg : s.head_x + s.speed * e + (s.grid_width : ℚ) =
        (s.grid_width : ℚ) + (s.grid_width : ℚ) := by
      rw [hxw, hde]
      ring
    rw [harg]
    exact fmod_double _ hwQ

/-- The concrete snake used to witness C3: 4×4 grid, head at column
`width - 1 = 3`, moving Right. -/
def wrapWitnessSnake : Snake :=
  { snakeInit 4 4 with direction := Direction.kRight, head_x := 3 }

/-- C3 witness: with displacement `10 * (1/10) = 1` the bounds hold and
the head wraps from column 3 to column 0 on the 4×4 grid. -/
theorem update_wraps_in_bounds_witness :
    (0 ≤ (wrapWitnessSnake.update (1 / 10)).head_x ∧
      (wrapWitnessSnake.update (1 / 10)).head_x < (wrapWitnessSnake.grid_width : ℚ) ∧
      0 ≤ (wrapWitnessSnake.update (1 / 10)).head_y ∧
      (wrapWitnessSnake.update (1 / 10)).head_y < (wrapWitnessSnake.grid_height : ℚ)) ∧
    (wrapWitnessSnake.direction = Direction.kRight →
      wrapWitnessSnake.head_x = (wrapWitnessSnake.grid_width : ℚ) - 1 →
      wrapWitnessSnake.speed * (1 / 10) = 1 →
      (wrapWitnessSnake.update (1 / 10)).head_x = 0) :=
  update_wraps_in_bounds wrapWitnessSnake (1 / 10)
    (by norm_num [wrapWitnessSnake, snakeInit])
    (by norm_num [wrapWitnessSnake, snakeInit])
    (by norm_num [wrapWitnessSnake, snakeInit])
    (by norm_num [wrapWitnessSnake, snakeInit])
    (by norm_num [wrapWitnessSnake, snakeInit])
    (by norm_num [wrapWitnessSnake, snakeInit])
    (by norm_num [wrapWitnessSnake, snakeInit])
    (by norm_num [wrapWitnessSnake, snakeInit])
    (by norm_num [wrapWitnessSnake, snakeInit])

/-! ### C6 -/

theorem SDLPoint.eq_of_coords (a b : SDLPoint) (hx : a.x = b.x) (hy : a.y = b.y) : a = b := by
  cases a
  cases b
  simp_all

/-- C6: on a cell-crossing tick whose new discrete head cell lies in the
post-update trailing sequence, `Snake::UpdateBody` clears `alive`; and
no operation except `Snake::Reset` ever sets `alive` back to true
(`Update`, `GrowBody`, `IncreaseSpeed` and `Controller::ChangeDirection`
all preserve a false `alive`, while `Reset` restores it). -/
theorem self_collision_kills (s t : Snake) (e e2 : ℚ) (input opp : Direction)
    (hsize : 3 ≤ s.size)
    (hcross : (s.updateHead e).cell ≠ s.cell)
    (hmem : (s.updateHead e).cell ∈ (s.update e).body)
    (hdead : t.alive = false) :
    (s.update e).alive = false ∧
      (t.update e2).alive = false ∧
      t.growBody.alive = false ∧
      t.increaseSpeed.alive = false ∧
      (changeDirection t input opp).alive = false ∧
      t.reset.alive = true := by
  have hcond : (s.updateHead e).cell.x ≠ s.cell.x ∨ (s.updateHead e).cell.y ≠ s.cell.y := by
    by_contra hcon
    push_neg at hcon
    exact hcross (SDLPoint.eq_of_coords _ _ hcon.1 hcon.2)
  refine ⟨?_, ?_, hdead, hdead, ?_, rfl⟩
  · rw [Snake.update_eq, if_pos hcond, Snake.updateBody_eq] at hmem ⊢
    rw [(collideCheck_fields _ _).1] at hmem
    exact collideCheck_alive_of_mem _ _ hmem
  · rw [Snake.update_eq]
    have hal : (t.updateHead e2).alive = false := by
      rw [(Snake.updateHead_fields t e2).2.2.1]
      exact hdead
    split
    · rw [Snake.updateBody_eq]
      apply collideCheck_alive_false
      by_cases hg : (t.updateHead e2).growing = true <;> simp [hg, hal]
    · exact hal
  · unfold changeDirection
    split <;> exact hdead

/-- The concrete size-3 snake used to witness C6: moving Up into the
cell (2, 1) occupied by its first trailing segment. -/
def collideWitnessSnake : Snake :=
  { direction := Direction.kUp
    speed := 1
    size := 3
    alive := true
    head_x := 2
    head_y := 2
    body := [⟨2, 1⟩, ⟨2, 0⟩]
    growing := false
    grid_width := 6
    grid_height := 6 }

/-- The dead snake used to witness the alive-preservation half of C6. -/
def deadWitnessSnake : Snake :=
  { collideWitnessSnake with alive := false }

/-- C6 witness: the concrete collision tick kills the snake and the
dead snake stays dead under every non-reset operation. -/
theorem self_collision_kills_witness :
    (collideWitnessSnake.update 1).alive = false ∧
      (deadWitnessSnake.update 1).alive = false ∧
      deadWitnessSnake.growBody.alive = false ∧
      deadWitnessSnake.increaseSpeed.alive = false ∧
      (changeDirection deadWitnessSnake Direction.kLeft Direction.kRight).alive = false ∧
      deadWitnessSnake.reset.alive = true :=
  self_collision_kills collideWitnessSnake deadWitnessSnake 1 1 Direction.kLeft Direction.kRight
    (by norm_num [collideWitnessSnake])
    (by
      have hc : ⌊(8 / 6 : ℚ)⌋ = 1 := by norm_num
      have hc2 : ⌊(7 / 6 : ℚ)⌋ = 1 := by norm_num
      norm_num [collideWitnessSnake, Snake.updateHead, Snake.cell, fmod, rtrunc, hc, hc2])
    (by
      have hc : ⌊(8 / 6 : ℚ)⌋ = 1 := by norm_num
      have hc2 : ⌊(7 / 6 : ℚ)⌋ = 1 := by norm_num
      norm_num [collideWitnessSnake, Snake.update, Snake.updateHead, Snake.updateBody,
        Snake.cell, fmod, rtrunc, hc, hc2, List.dropLast])
    rfl

/-! ### C7 -/

theorem Snake.updateBody_size_sub_len (s : Snake) (c p : SDLPoint) :
    (s.updateBody c p).size - ((s.updateBody c p).body.length : Int)
      = s.size - (s.body.length : Int) := by
  rw [Snake.updateBody_size, Snake.updateBody_body]
  by_cases hg : s.growing = true <;> simp [hg, List.length_dropLast] <;> push_cast <;> ring

theorem growCycle_foldl (ps : List (SDLPoint × SDLPoint)) : ∀ t : Snake,
    (ps.foldl (fun u pr => u.growBody.updateBody pr.1 pr.2) t).size
        = t.size + (ps.length : Int) ∧
      (ps.foldl (fun u pr => u.growBody.updateBody pr.1 pr.2) t).body.length
        = t.body.length + ps.length := by
  induction ps with
  | nil =>
    intro t
    simp
  | cons a rest ih =>
    intro t
    simp only [List.foldl_cons, List.length_cons]
    obtain ⟨ih1, ih2⟩ := ih (t.growBody.updateBody a.1 a.2)
    have hsz : (t.growBody.updateBody a.1 a.2).size = t.size + 1 := by
      rw [Snake.updateBody_size]
      simp [Snake.growBody]
    have hln : (t.growBody.updateBody a.1 a.2).body.length = t.body.length + 1 := by
      rw [Snake.updateBody_body]
      simp [Snake.growBody]
    constructor
    · rw [ih1, hsz]
      push_cast
      ring
    · rw [ih2, hln]
      omega

/-- C7: every `Snake::Update` preserves the quantity
`size - length(trailing segments)` (so the invariant
`size == 1 + length` holds at every quiescent point reachable from a
fresh or reset snake, where it holds initially); and after `N`
consumption events — each a `GrowBody` followed by its realizing
cell-crossing `UpdateBody` tick — starting from a fresh snake, `size`
is `N + 1` and the trailing sequence has length `N`. -/
theorem size_matches_body_length (s : Snake) (e : ℚ) (w h : Int)
    (ps : List (SDLPoint × SDLPoint)) :
    (s.update e).size - ((s.update e).body.length : Int)
        = s.size - (s.body.length : Int) ∧
      (snakeInit w h).size = 1 + ((snakeInit w h).body.length : Int) ∧
      s.reset.size = 1 + (s.reset.body.length : Int) ∧
      s.growBody.size - (s.growBody.body.length : Int) = s.size - (s.body.length : Int) ∧
      (ps.foldl (fun u pr => u.growBody.updateBody pr.1 pr.2) (snakeInit w h)).size
          = (ps.length : Int) + 1 ∧
      ((ps.foldl (fun u pr => u.growBody.updateBody pr.1 pr.2) (snakeInit w h)).body.length
          : Int) = (ps.length : Int) := by
  obtain ⟨hfs, hfl⟩ := growCycle_foldl ps (snakeInit w h)
  refine ⟨?_, rfl, rfl, rfl, ?_, ?_⟩
  · rw [Snake.update_eq]
    split
    · rw [Snake.updateBody_size_sub_len, (Snake.updateHead_fields s e).1,
        (Snake.updateHead_fields s e).2.1]
    · rw [(Snake.updateHead_fields s e).1, (Snake.updateHead_fields s e).2.1]
  · rw [hfs]
    simp [snakeInit]
    ring
  · rw [hfl]
    simp [snakeInit]

/-! ### C8 -/

/-- C8: `Controller::ChangeDirection` with the opposite the key handler
supplies leaves the direction unchanged exactly when the request is the
exact opposite of the current direction and `size > 1`; a size-1 snake
may pivot in place, and any non-opposite request is always applied. -/
theorem changeDirection_reversal_rule (s : Snake) (input : Direction) (hs : 1 ≤ s.size) :
    (changeDirection s input (oppositeDir input)).direction =
      if input = oppositeDir s.direction ∧ 1 < s.size then s.direction else input := by
  have hiff : s.direction = oppositeDir input ↔ input = oppositeDir s.direction := by
    cases hd : s.direction <;> cases hi : input <;> simp [oppositeDir]
  unfold changeDirection
  by_cases hop : input = oppositeDir s.direction
  · by_cases hsz : s.size = 1
    · rw [if_pos (Or.inr hsz), if_neg (fun hc => by omega)]
    · have h1 : 1 < s.size := by omega
      rw [if_neg (fun hc => hc.elim (fun hne => hne (hiff.mpr hop)) hsz),
        if_pos ⟨hop, h1⟩]
  · rw [if_pos (Or.inl (fun heq => hop (hiff.mp heq))), if_neg (fun hc => hop hc.1)]

/-- C8 witness: the fresh size-1 snake facing Up accepts the opposite
request Down (pivot in place). -/
theorem changeDirection_reversal_rule_witness :
    1 ≤ (snakeInit 4 4).size ∧
      (changeDirection (snakeInit 4 4) Direction.kDown (oppositeDir Direction.kDown)).direction =
        if Direction.kDown = oppositeDir (snakeInit 4 4).direction ∧ 1 < (snakeInit 4 4).size
        then (snakeInit 4 4).direction else Direction.kDown :=
  ⟨by decide, changeDirection_reversal_rule (snakeInit 4 4) Direction.kDown (by decide)⟩

/-! ### C9 -/

/-- C9: the speed after the `k`-th consumption event (`IncreaseSpeed`
applied `k` times from a fresh snake) is strictly greater than after
the `(k-1)`-th, and no other operation of a run (`Update`, `GrowBody`,
`UpdateBody`, `ChangeDirection`) changes the speed; only `Reset`
restores the base speed 10. -/
theorem speed_strictly_increases (w h : Int) (k : ℕ) (s : Snake) (e : ℚ)
    (input opp : Direction) (c p : SDLPoint) :
    (Snake.increaseSpeed^[k] (snakeInit w h)).speed
        < (Snake.increaseSpeed^[k + 1] (snakeInit w h)).speed ∧
      (s.update e).speed = s.speed ∧
      s.growBody.speed = s.speed ∧
      (s.updateBody c p).speed = s.speed ∧
      (changeDirection s input opp).speed = s.speed ∧
      s.reset.speed = 10 := by
  refine ⟨?_, ?_, rfl, Snake.updateBody_speed s c p, ?_, rfl⟩
  · have hpos : ∀ n : ℕ, 0 < (Snake.increaseSpeed^[n] (snakeInit w h)).speed := by
      intro n
      induction n with
      | zero => norm_num [snakeInit]
      | succ m ihm =>
        rw [Function.iterate_succ_apply']
        simp only [Snake.increaseSpeed]
        nlinarith [ihm]
    rw [Function.iterate_succ_apply']
    have hk := hpos k
    simp only [Snake.increaseSpeed]
    nlinarith [hk]
  · rw [Snake.update_eq]
    split
    · rw [Snake.updateBody_speed, (Snake.updateHead_fields s e).2.2.2.2.1]
    · exact (Snake.updateHead_fields s e).2.2.2.2.1
  · unfold changeDirection
    split <;> rfl

/-! ### C10 -/

/-- C10: a failed `SDL_ShowMessageBox` makes
`GameOverHandler::ShowGameOverMessage` return false, exactly the answer
of the "No" button, so `Game::HandleGameOver` then sets
`running = false` leaving everything else unchanged; `ResetGame` runs
exactly when the prompt answer is affirmative (button id 1). -/
theorem gameOver_failure_as_negative (g : Game) (r : MsgBoxOutcome)
    (cands : List SDLPoint) :
    showGameOverMessage MsgBoxOutcome.failure = false ∧
      (showGameOverMessage r = true ↔ r = MsgBoxOutcome.clicked 1) ∧
      g.handleGameOver MsgBoxOutcome.failure cands
          = g.handleGameOver (MsgBoxOutcome.clicked 0) cands ∧
      g.handleGameOver MsgBoxOutcome.failure cands = some { g with running := false } ∧
      (g.handleGameOver r cands = g.resetGame cands ↔ showGameOverMessage r = true) := by
  refine ⟨rfl, ?_, rfl, rfl, ?_⟩
  · cases r with
    | failure => simp [showGameOverMessage]
    | clicked id => simp [showGameOverMessage]
  · by_cases hshow : showGameOverMessage r = true
    · rw [Game.handleGameOver, if_pos hshow]
      simp [hshow]
    · rw [Game.handleGameOver, if_neg hshow]
      constructor
      · intro heq
        exfalso
        rcases hpf : placeFoodLoop cands g.snake.reset with _ | f
        · simp only [Game.resetGame, hpf] at heq
          exact Option.noConfusion heq
        · simp only [Game.resetGame, hpf] at heq
          have hrec := Option.some.inj heq
          have hrun := congrArg Game.running hrec
          simp at hrun
      · intro htrue
        exact absurd htrue hshow

end SnakeGame
